import Mathlib

/-!
# Stream Lightning signaling server: a shallow embedding

This file embeds the room-lifecycle and message-relay core of the
Stream Lightning server (`src/server.py`) and proves properties of it.

Modelling decisions:
* Python JSON-ish values are the inductive `Val`; a `dict.get(k)` that can
  return `None` is modelled by `dget`, which yields `Val.vnull` when the
  key is missing, and `dgetD` models `dict.get(k, default)`.
* Event payload dictionaries are association lists `List (String × Val)`.
* The module-level dicts `active_rooms`, `stream_stats` and the
  socket.io room groups are association lists keyed by `Val` (a room id is
  whatever `data.get('room_id')` returned, possibly `vnull`).
* `emit` calls become `OutEvt` instructions carrying a delivery `Target`;
  `recipients` interprets a target as the set of connection ids that
  actually receive the event (a disconnected socket receives nothing).
* Wall-clock reads (`datetime.now()`, `strftime`, `isoformat`) are passed
  in as explicit arguments, since the handlers only embed them in payloads.
-/

set_option autoImplicit false

namespace StreamLightning

/-- JSON-compatible values as they appear in socket.io payloads.
`vnull` doubles as Python `None`, which is also what `dict.get` returns
for a missing key. -/
inductive Val where
  | vnull : Val
  | vstr : String → Val
  | vnum : Nat → Val
  deriving DecidableEq, Repr

/-- `dlookup d k` is the value stored under key `k`, if any
(the object-field lookup underlying Python `dict.get`). -/
def dlookup : List (String × Val) → String → Option Val
  | [], _ => none
  | (k', v) :: rest, k => if k' = k then some v else dlookup rest k

/-- Python `data.get(k, default)`: the default is used only when the key
is absent. -/
def dgetD (d : List (String × Val)) (k : String) (dflt : Val) : Val :=
  (dlookup d k).getD dflt

/-- Python `data.get(k)`: `None` (here `vnull`) when the key is absent. -/
def dget (d : List (String × Val)) (k : String) : Val :=
  dgetD d k Val.vnull

/-- Lookup in a `Val`-keyed dictionary (`m[k]` / `k in m`). -/
def lookupKey {α : Type} : List (Val × α) → Val → Option α
  | [], _ => none
  | (k', v) :: rest, k => if k' = k then some v else lookupKey rest k

/-- Store `m[k] = v`: replace the binding of `k`, or append a fresh one. -/
def setKey {α : Type} : List (Val × α) → Val → α → List (Val × α)
  | [], k, v => [(k, v)]
  | (k', v') :: rest, k, v =>
      if k' = k then (k, v) :: rest else (k', v') :: setKey rest k v

/-- Python `del m[k]`: drop every binding of `k` (there is at most one
when the keys are `Nodup`, matching a Python dict). -/
def delKey {α : Type} : List (Val × α) → Val → List (Val × α)
  | [], _ => []
  | (k', v') :: rest, k =>
      if k' = k then delKey rest k else (k', v') :: delKey rest k

/-- The keys of a `Val`-keyed dictionary. -/
def keysOf {α : Type} (m : List (Val × α)) : List Val :=
  m.map Prod.fst

/-- The `StreamRoom` class: one host, a set of viewer connection ids,
a chat history, a creation timestamp and the stream-active flag. -/
structure StreamRoom where
  room_id : Val
  host_id : String
  viewers : Finset String
  chat_history : List (List (String × Val))
  created_at : Nat
  stream_active : Bool
  deriving DecidableEq

/-- `StreamRoom.add_viewer`: `self.viewers.add(viewer_id)`. -/
def StreamRoom.add_viewer (r : StreamRoom) (viewer_id : String) : StreamRoom :=
  { r with viewers := insert viewer_id r.viewers }

/-- `StreamRoom.remove_viewer`: `self.viewers.discard(viewer_id)`. -/
def StreamRoom.remove_viewer (r : StreamRoom) (viewer_id : String) : StreamRoom :=
  { r with viewers := r.viewers.erase viewer_id }

/-- `StreamRoom.get_viewer_count`: `len(self.viewers)`. -/
def StreamRoom.get_viewer_count (r : StreamRoom) : Nat :=
  r.viewers.card

/-- Delivery target of an `emit` call: the requesting socket only, a
socket.io room group, or a group with the sender excluded
(`include_self=False`). -/
inductive Target where
  | sender : Target
  | toGroup : Val → Target
  | toGroupExcept : Val → String → Target
  deriving DecidableEq, Repr

/-- One outbound `emit` instruction: event name, payload, target. -/
structure OutEvt where
  name : String
  payload : List (String × Val)
  target : Target
  deriving DecidableEq, Repr

/-- The server's mutable module-level state: `active_rooms`,
`stream_stats`, the socket.io group-membership table, and the set of
currently connected socket ids. -/
structure ServerState where
  active_rooms : List (Val × StreamRoom)
  stream_stats : List (Val × List (List (String × Val)))
  groups : List (Val × Finset String)
  connected : Finset String
  deriving DecidableEq

/-- Members of a socket.io group (empty when the group was never joined). -/
def groupOf (s : ServerState) (g : Val) : Finset String :=
  (lookupKey s.groups g).getD ∅

/-- `join_room(g)` performed by socket `sid`. -/
def addToGroup (m : List (Val × Finset String)) (g : Val) (sid : String) :
    List (Val × Finset String) :=
  setKey m g (insert sid ((lookupKey m g).getD ∅))

/-- The set of connection ids that actually receive an event emitted by
`sender` at a given target: delivery never reaches a disconnected socket. -/
def recipients (s : ServerState) (sender : String) : Target → Finset String
  | Target.sender => if sender ∈ s.connected then {sender} else ∅
  | Target.toGroup g => groupOf s g ∩ s.connected
  | Target.toGroupExcept g x => (groupOf s g ∩ s.connected).erase x

/-- `getRoom` lookup of the spec: `roomId in active_rooms`. -/
def getRoom (s : ServerState) (room_id : Val) : Option StreamRoom :=
  lookupKey s.active_rooms room_id

/-- The `/api/stats/<room_id>` route: the stored stats list, or `[]`. -/
def get_stats (s : ServerState) (room_id : Val) : List (List (String × Val)) :=
  (lookupKey s.stream_stats room_id).getD []

/-- The `connect` handler: register the socket (socket.io also places
each socket in a personal group named after its own id) and emit
`connected` back to it. -/
def handle_connect (s : ServerState) (sid : String) : ServerState × List OutEvt :=
  ({ s with
      connected := insert sid s.connected,
      groups := addToGroup s.groups (Val.vstr sid) sid },
   [⟨"connected", [("sid", Val.vstr sid)], Target.sender⟩])

/-- The `create_room` handler: `join_room(room_id)`, build a fresh
`StreamRoom` with the sender as host, store it (silently replacing any
room already under that id), and emit `room_created` to the sender. -/
def handle_create_room (s : ServerState) (sid : String)
    (data : List (String × Val)) (now : Nat) : ServerState × List OutEvt :=
  let room_id := dget data "room_id"
  let room : StreamRoom :=
    { room_id := room_id, host_id := sid, viewers := ∅,
      chat_history := [], created_at := now, stream_active := false }
  ({ s with
      groups := addToGroup s.groups room_id sid,
      active_rooms := setKey s.active_rooms room_id room },
   [⟨"room_created", [("room_id", room_id), ("host_id", Val.vstr sid)],
     Target.sender⟩])

/-- The `join_room` handler: on an unknown room, emit `error` to the
sender and stop; otherwise join the group, add the viewer, and emit
`room_joined` to the sender plus `viewer_joined` to the rest of the
group (`include_self=False`). -/
def handle_join_room (s : ServerState) (sid : String)
    (data : List (String × Val)) : ServerState × List OutEvt :=
  let room_id := dget data "room_id"
  let username := dgetD data "username" (Val.vstr "Anonymous")
  match lookupKey s.active_rooms room_id with
  | none => (s, [⟨"error", [("message", Val.vstr "Room not found")], Target.sender⟩])
  | some room =>
    let room' := room.add_viewer sid
    ({ s with
        groups := addToGroup s.groups room_id sid,
        active_rooms := setKey s.active_rooms room_id room' },
     [⟨"room_joined",
        [("room_id", room_id),
         ("viewer_count", Val.vnum room'.get_viewer_count),
         ("username", username)], Target.sender⟩,
      ⟨"viewer_joined",
        [("viewer_id", Val.vstr sid),
         ("username", username),
         ("viewer_count", Val.vnum room'.get_viewer_count)],
        Target.toGroupExcept room_id sid⟩])

/-- The `start_stream` handler: if the room exists, set
`stream_active = True` and broadcast `stream_started` to the group;
otherwise do nothing at all. -/
def handle_start_stream (s : ServerState) (sid : String)
    (data : List (String × Val)) : ServerState × List OutEvt :=
  let room_id := dget data "room_id"
  match lookupKey s.active_rooms room_id with
  | some room =>
      ({ s with active_rooms :=
          setKey s.active_rooms room_id { room with stream_active := true } },
       [⟨"stream_started", [("room_id", room_id)], Target.toGroup room_id⟩])
  | none => (s, [])

/-- The `stop_stream` handler: mirror image of `start_stream`. -/
def handle_stop_stream (s : ServerState) (sid : String)
    (data : List (String × Val)) : ServerState × List OutEvt :=
  let room_id := dget data "room_id"
  match lookupKey s.active_rooms room_id with
  | some room =>
      ({ s with active_rooms :=
          setKey s.active_rooms room_id { room with stream_active := false } },
       [⟨"stream_stopped", [("room_id", room_id)], Target.toGroup room_id⟩])
  | none => (s, [])

/-- The `offer` handler: pure relay, no state change, no membership
check; the payload is forwarded with `sender_id` injected, addressed to
the group named by `target_id` (a personal group for a socket id). -/
def handle_offer (s : ServerState) (sid : String)
    (data : List (String × Val)) : ServerState × List OutEvt :=
  (s, [⟨"offer",
        [("offer", dget data "offer"), ("sender_id", Val.vstr sid)],
        Target.toGroup (dget data "target_id")⟩])

/-- The `answer` handler: same relay shape as `offer`. -/
def handle_answer (s : ServerState) (sid : String)
    (data : List (String × Val)) : ServerState × List OutEvt :=
  (s, [⟨"answer",
        [("answer", dget data "answer"), ("sender_id", Val.vstr sid)],
        Target.toGroup (dget data "target_id")⟩])

/-- The `ice_candidate` handler: same relay shape as `offer`. -/
def handle_ice_candidate (s : ServerState) (sid : String)
    (data : List (String × Val)) : ServerState × List OutEvt :=
  (s, [⟨"ice_candidate",
        [("candidate", dget data "candidate"), ("sender_id", Val.vstr sid)],
        Target.toGroup (dget data "target_id")⟩])

/-- The `chat_message` handler: if the room exists, append the chat
entry to its history and broadcast it to the whole group; otherwise do
nothing. `now` is the `HH:MM:SS` timestamp string. -/
def handle_chat_message (s : ServerState) (sid : String)
    (data : List (String × Val)) (now : String) : ServerState × List OutEvt :=
  let room_id := dget data "room_id"
  let message := dget data "message"
  let username := dgetD data "username" (Val.vstr "Anonymous")
  match lookupKey s.active_rooms room_id with
  | some room =>
      let chat_data : List (String × Val) :=
        [("username", username), ("message", message),
         ("timestamp", Val.vstr now)]
      let room' : StreamRoom :=
        { room with chat_history := room.chat_history ++ [chat_data] }
      ({ s with active_rooms := setKey s.active_rooms room_id room' },
       [⟨"chat_message", chat_data, Target.toGroup room_id⟩])
  | none => (s, [])

/-- The `stream_stats` handler: lazily create the room's stats list,
append the new entry, and trim to the most recent 100 entries when the
length exceeds 100 (`stream_stats[room_id][-100:]`). `now` is the ISO
timestamp string. -/
def handle_stream_stats (s : ServerState) (sid : String)
    (data : List (String × Val)) (now : String) : ServerState × List OutEvt :=
  let room_id := dget data "room_id"
  let stats := dget data "stats"
  let cur := (lookupKey s.stream_stats room_id).getD []
  let log1 := cur ++ [[("timestamp", Val.vstr now), ("stats", stats)]]
  let log2 := if log1.length > 100 then log1.drop (log1.length - 100) else log1
  ({ s with stream_stats := setKey s.stream_stats room_id log2 }, [])

/-- The `stream_ended` broadcast emitted when a host disconnects. -/
def streamEndedEvt (room_id : Val) : OutEvt :=
  ⟨"stream_ended", [("message", Val.vstr "Host disconnected")],
   Target.toGroup room_id⟩

/-- The `viewer_left` broadcast emitted when a viewer disconnects. -/
def viewerLeftEvt (room_id : Val) (sid : String) (count : Nat) : OutEvt :=
  ⟨"viewer_left",
   [("viewer_id", Val.vstr sid), ("viewer_count", Val.vnum count)],
   Target.toGroup room_id⟩

/-- The cleanup loop of the `disconnect` handler: iterate over a
snapshot of `active_rooms`; a room hosted by the leaver is torn down
after a `stream_ended` broadcast; a room merely viewed by the leaver
has the viewer removed and a `viewer_left` broadcast sent. -/
def disconnectLoop (sid : String) :
    List (Val × StreamRoom) → ServerState → ServerState × List OutEvt
  | [], st => (st, [])
  | (room_id, room) :: rest, st =>
    if room.host_id = sid then
      let st' := { st with active_rooms := delKey st.active_rooms room_id }
      let r := disconnectLoop sid rest st'
      (r.1, streamEndedEvt room_id :: r.2)
    else if sid ∈ room.viewers then
      let room' := room.remove_viewer sid
      let st' := { st with active_rooms := setKey st.active_rooms room_id room' }
      let r := disconnectLoop sid rest st'
      (r.1, viewerLeftEvt room_id sid room'.get_viewer_count :: r.2)
    else
      disconnectLoop sid rest st

/-- The `disconnect` handler: the socket is gone (it leaves `connected`
and all of its groups — socket.io removes a disconnected client from
its rooms, and no delivery can reach it anyway), then the cleanup loop
runs over a snapshot of `active_rooms`. -/
def handle_disconnect (s : ServerState) (sid : String) :
    ServerState × List OutEvt :=
  let s0 : ServerState :=
    { s with
        connected := s.connected.erase sid,
        groups := s.groups.map (fun p => (p.1, p.2.erase sid)) }
  disconnectLoop sid s0.active_rooms s0

/-- The stats entry built by `handle_stream_stats` from a timestamp and
a stats value. -/
def statsEntryOf (p : String × Val) : List (String × Val) :=
  [("timestamp", Val.vstr p.1), ("stats", p.2)]

/-- The payload of one `stream_stats` event for room `r`. -/
def statsEvent (r : Val) (stats : Val) : List (String × Val) :=
  [("room_id", r), ("stats", stats)]

/-- Feed a sequence of `stream_stats` events for room `r` to the server;
each input pairs the ISO timestamp with the stats value. -/
def runStats (r : Val) (inputs : List (String × Val)) (s : ServerState) :
    ServerState :=
  inputs.foldl (fun st p => (handle_stream_stats st "h" (statsEvent r p.2) p.1).1) s

/-- The last `n` elements of a list. -/
def lastN {α : Type} (n : Nat) (l : List α) : List α :=
  l.drop (l.length - n)

/-! ## Dictionary lemmas -/

theorem lookupKey_setKey_self {α : Type} (m : List (Val × α)) (k : Val) (v : α) :
    lookupKey (setKey m k v) k = some v := by
  induction m with
  | nil => simp [setKey, lookupKey]
  | cons p rest ih =>
    obtain ⟨k', v'⟩ := p
    by_cases h : k' = k
    · simp [setKey, lookupKey, h]
    · simp [setKey, lookupKey, h, ih]

theorem lookupKey_setKey_ne {α : Type} (m : List (Val × α)) (k k' : Val) (v : α)
    (h : k ≠ k') : lookupKey (setKey m k v) k' = lookupKey m k' := by
  induction m with
  | nil => simp [setKey, lookupKey, h]
  | cons p rest ih =>
    obtain ⟨k₀, v₀⟩ := p
    by_cases h₀ : k₀ = k
    · simp [setKey, lookupKey, h₀, h]
    · by_cases h₁ : k₀ = k'
      · simp [setKey, lookupKey, h₀, h₁, Ne.symm h]
      · simp [setKey, lookupKey, h₀, h₁, ih]

theorem lookupKey_delKey_self {α : Type} (m : List (Val × α)) (k : Val) :
    lookupKey (delKey m k) k = none := by
  induction m with
  | nil => simp [delKey, lookupKey]
  | cons p rest ih =>
    obtain ⟨k₀, v₀⟩ := p
    by_cases h₀ : k₀ = k
    · simp [delKey, h₀, ih]
    · simp [delKey, lookupKey, h₀, ih]

theorem lookupKey_delKey_ne {α : Type} (m : List (Val × α)) (k k' : Val)
    (h : k ≠ k') : lookupKey (delKey m k) k' = lookupKey m k' := by
  induction m with
  | nil => simp [delKey]
  | cons p rest ih =>
    obtain ⟨k₀, v₀⟩ := p
    by_cases h₀ : k₀ = k
    · subst h₀; simp [delKey, lookupKey, h, ih]
    · simp [delKey, lookupKey, h₀, ih]

theorem lookupKey_eq_of_mem {α : Type} {m : List (Val × α)} {k : Val} {v : α}
    (hnd : (keysOf m).Nodup) (hmem : (k, v) ∈ m) : lookupKey m k = some v := by
  induction m with
  | nil => simp at hmem
  | cons p rest ih =>
    obtain ⟨k₀, v₀⟩ := p
    simp only [keysOf, List.map_cons, List.nodup_cons] at hnd
    rcases List.mem_cons.mp hmem with heq | hrest
    · cases heq
      simp [lookupKey]
    · have hk₀ : k₀ ≠ k := by
        intro hkk
        exact hnd.1 (hkk ▸ (List.mem_map.mpr ⟨(k, v), hrest, rfl⟩))
      simp [lookupKey, hk₀, ih hnd.2 hrest]

theorem lookupKey_map_snd {α β : Type} (f : α → β) (m : List (Val × α)) (k : Val) :
    lookupKey (m.map (fun p => (p.1, f p.2))) k = (lookupKey m k).map f := by
  induction m with
  | nil => simp [lookupKey]
  | cons p rest ih =>
    obtain ⟨k₀, v₀⟩ := p
    by_cases h₀ : k₀ = k
    · simp [lookupKey, h₀]
    · simp [lookupKey, h₀, ih]

/-! ## Claim C2: join_room on a nonexistent room -/

/-- C2: a `join_room` event whose room id is not an active room produces
exactly one `error` event with message "Room not found", addressed to the
sender alone, and leaves the server state untouched. -/
theorem join_room_absent_is_error_only (s : ServerState) (sid : String)
    (data : List (String × Val))
    (h : lookupKey s.active_rooms (dget data "room_id") = none) :
    handle_join_room s sid data =
      (s, [⟨"error", [("message", Val.vstr "Room not found")], Target.sender⟩]) ∧
    recipients s sid Target.sender ⊆ {sid} := by
  constructor
  · simp [handle_join_room, h]
  · by_cases hs : sid ∈ s.connected <;> simp [recipients, hs]

/-- Witness for C2 at a concrete state with no rooms. -/
theorem join_room_absent_is_error_only_witness :
    lookupKey (ServerState.mk [] [] [] {"a"}).active_rooms
        (dget [("room_id", Val.vstr "r")] "room_id") = none ∧
    (handle_join_room ⟨[], [], [], {"a"}⟩ "a" [("room_id", Val.vstr "r")] =
      (⟨[], [], [], {"a"}⟩,
       [⟨"error", [("message", Val.vstr "Room not found")], Target.sender⟩]) ∧
     recipients ⟨[], [], [], {"a"}⟩ "a" Target.sender ⊆ {"a"}) :=
  ⟨by decide, join_room_absent_is_error_only ⟨[], [], [], {"a"}⟩ "a"
      [("room_id", Val.vstr "r")] (by decide)⟩

/-! ## Claim C5: offer / answer / ice_candidate are pure relays -/

/-- C5: the three signaling relays leave the state unchanged, forward the
payload value unmodified with a single injected `sender_id` field, perform
no room-membership check (the output never depends on the room table), and
deliver to the target connection only. -/
theorem signaling_relay_pure (s : ServerState) (sid : String)
    (data : List (String × Val)) (tid : String)
    (hg : groupOf s (dget data "target_id") = {tid})
    (hc : tid ∈ s.connected) :
    handle_offer s sid data =
      (s, [⟨"offer", [("offer", dget data "offer"),
                      ("sender_id", Val.vstr sid)],
            Target.toGroup (dget data "target_id")⟩]) ∧
    handle_answer s sid data =
      (s, [⟨"answer", [("answer", dget data "answer"),
                       ("sender_id", Val.vstr sid)],
            Target.toGroup (dget data "target_id")⟩]) ∧
    handle_ice_candidate s sid data =
      (s, [⟨"ice_candidate", [("candidate", dget data "candidate"),
                              ("sender_id", Val.vstr sid)],
            Target.toGroup (dget data "target_id")⟩]) ∧
    recipients s sid (Target.toGroup (dget data "target_id")) = {tid} := by
  refine ⟨rfl, rfl, rfl, ?_⟩
  rw [recipients, hg]
  exact Finset.singleton_inter_of_mem hc

/-- Witness for C5: a two-socket state where the target's personal group
is exactly itself. -/
theorem signaling_relay_pure_witness :
    groupOf ⟨[], [], [(Val.vstr "t", {"t"})], {"a", "t"}⟩
        (dget [("target_id", Val.vstr "t"), ("offer", Val.vstr "o")] "target_id")
      = {"t"} ∧
    "t" ∈ (ServerState.mk [] [] [(Val.vstr "t", {"t"})] {"a", "t"}).connected ∧
    recipients ⟨[], [], [(Val.vstr "t", {"t"})], {"a", "t"}⟩ "a"
      (Target.toGroup
        (dget [("target_id", Val.vstr "t"), ("offer", Val.vstr "o")] "target_id"))
      = {"t"} :=
  ⟨by decide, by decide,
   (signaling_relay_pure ⟨[], [], [(Val.vstr "t", {"t"})], {"a", "t"}⟩ "a"
      [("target_id", Val.vstr "t"), ("offer", Val.vstr "o")] "t"
      (by decide) (by decide)).2.2.2⟩

/-! ## Claim C6: create_room silently clobbers an existing room -/

/-- C6: a `create_room` event whose room id is already present replaces the
stored room with a fresh one (sender as host, empty viewer set), emits only
`room_created` to the sender, and notifies nobody else. -/
theorem create_room_silently_replaces (s : ServerState) (sid : String)
    (data : List (String × Val)) (now : Nat) (old : StreamRoom)
    (h : lookupKey s.active_rooms (dget data "room_id") = some old) :
    getRoom (handle_create_room s sid data now).1 (dget data "room_id") =
      some ⟨dget data "room_id", sid, ∅, [], now, false⟩ ∧
    (handle_create_room s sid data now).2 =
      [⟨"room_created",
        [("room_id", dget data "room_id"), ("host_id", Val.vstr sid)],
        Target.sender⟩] := by
  constructor
  · simp [handle_create_room, getRoom, lookupKey_setKey_self]
  · rfl

/-- Witness for C6: overwrite a room "r" previously hosted by "h" that
had a viewer "v". -/
theorem create_room_silently_replaces_witness :
    lookupKey (ServerState.mk
        [(Val.vstr "r", ⟨Val.vstr "r", "h", {"v"}, [], 0, false⟩)]
        [] [] {"h", "v", "c"}).active_rooms
        (dget [("room_id", Val.vstr "r")] "room_id")
      = some ⟨Val.vstr "r", "h", {"v"}, [], 0, false⟩ ∧
    (getRoom (handle_create_room
        ⟨[(Val.vstr "r", ⟨Val.vstr "r", "h", {"v"}, [], 0, false⟩)],
         [], [], {"h", "v", "c"}⟩ "c" [("room_id", Val.vstr "r")] 5).1
        (dget [("room_id", Val.vstr "r")] "room_id") =
      some ⟨dget [("room_id", Val.vstr "r")] "room_id", "c", ∅, [], 5, false⟩ ∧
    (handle_create_room
        ⟨[(Val.vstr "r", ⟨Val.vstr "r", "h", {"v"}, [], 0, false⟩)],
         [], [], {"h", "v", "c"}⟩ "c" [("room_id", Val.vstr "r")] 5).2 =
      [⟨"room_created",
        [("room_id", dget [("room_id", Val.vstr "r")] "room_id"),
         ("host_id", Val.vstr "c")], Target.sender⟩]) :=
  ⟨by decide, create_room_silently_replaces
      ⟨[(Val.vstr "r", ⟨Val.vstr "r", "h", {"v"}, [], 0, false⟩)],
       [], [], {"h", "v", "c"}⟩ "c" [("room_id", Val.vstr "r")] 5
      ⟨Val.vstr "r", "h", {"v"}, [], 0, false⟩ (by decide)⟩

/-! ## Claim C8: viewer-set operations are idempotent -/

/-- C8: `add_viewer` and `remove_viewer` are idempotent, and adding an
already-present viewer is a no-op rather than an error. -/
theorem viewer_ops_idempotent (room : StreamRoom) (c : String) :
    (room.add_viewer c).add_viewer c = room.add_viewer c ∧
    (room.remove_viewer c).remove_viewer c = room.remove_viewer c ∧
    (c ∈ room.viewers → room.add_viewer c = room) := by
  refine ⟨?_, ?_, fun h => ?_⟩
  · simp [StreamRoom.add_viewer]
  · simp [StreamRoom.remove_viewer, Finset.erase_idem]
  · simp [StreamRoom.add_viewer, Finset.insert_eq_self.mpr h]

/-- Witness for C8 at a concrete room already containing viewer "v". -/
theorem viewer_ops_idempotent_witness :
    ((StreamRoom.mk (Val.vstr "r") "h" {"v"} [] 0 false).add_viewer "v").add_viewer "v"
      = (StreamRoom.mk (Val.vstr "r") "h" {"v"} [] 0 false).add_viewer "v" ∧
    ((StreamRoom.mk (Val.vstr "r") "h" {"v"} [] 0 false).remove_viewer "v").remove_viewer "v"
      = (StreamRoom.mk (Val.vstr "r") "h" {"v"} [] 0 false).remove_viewer "v" ∧
    (StreamRoom.mk (Val.vstr "r") "h" {"v"} [] 0 false).add_viewer "v"
      = StreamRoom.mk (Val.vstr "r") "h" {"v"} [] 0 false :=
  ⟨(viewer_ops_idempotent ⟨Val.vstr "r", "h", {"v"}, [], 0, false⟩ "v").1,
   (viewer_ops_idempotent ⟨Val.vstr "r", "h", {"v"}, [], 0, false⟩ "v").2.1,
   (viewer_ops_idempotent ⟨Val.vstr "r", "h", {"v"}, [], 0, false⟩ "v").2.2
     (by decide)⟩

/-! ## Claim C10: start_stream / stop_stream / chat_message on an
unknown room are silent no-ops -/

/-- C10: when the room id is not an active room, `start_stream`,
`stop_stream` and `chat_message` emit nothing (no error either) and leave
the state untouched. -/
theorem unknown_room_silent_noop (s : ServerState) (sid : String)
    (data : List (String × Val)) (now : String)
    (h : lookupKey s.active_rooms (dget data "room_id") = none) :
    handle_start_stream s sid data = (s, []) ∧
    handle_stop_stream s sid data = (s, []) ∧
    handle_chat_message s sid data now = (s, []) := by
  refine ⟨?_, ?_, ?_⟩ <;>
    simp [handle_start_stream, handle_stop_stream, handle_chat_message, h]

/-- Witness for C10 at a concrete state holding only an unrelated room. -/
theorem unknown_room_silent_noop_witness :
    lookupKey (ServerState.mk
        [(Val.vstr "other", ⟨Val.vstr "other", "h", ∅, [], 0, false⟩)]
        [] [] {"a"}).active_rooms
        (dget [("room_id", Val.vstr "r")] "room_id") = none ∧
    (handle_start_stream
        ⟨[(Val.vstr "other", ⟨Val.vstr "other", "h", ∅, [], 0, false⟩)], [], [], {"a"}⟩
        "a" [("room_id", Val.vstr "r")] =
      (⟨[(Val.vstr "other", ⟨Val.vstr "other", "h", ∅, [], 0, false⟩)], [], [], {"a"}⟩, []) ∧
     handle_stop_stream
        ⟨[(Val.vstr "other", ⟨Val.vstr "other", "h", ∅, [], 0, false⟩)], [], [], {"a"}⟩
        "a" [("room_id", Val.vstr "r")] =
      (⟨[(Val.vstr "other", ⟨Val.vstr "other", "h", ∅, [], 0, false⟩)], [], [], {"a"}⟩, []) ∧
     handle_chat_message
        ⟨[(Val.vstr "other", ⟨Val.vstr "other", "h", ∅, [], 0, false⟩)], [], [], {"a"}⟩
        "a" [("room_id", Val.vstr "r")] "12:00:00" =
      (⟨[(Val.vstr "other", ⟨Val.vstr "other", "h", ∅, [], 0, false⟩)], [], [], {"a"}⟩, [])) :=
  ⟨by decide, unknown_room_silent_noop
      ⟨[(Val.vstr "other", ⟨Val.vstr "other", "h", ∅, [], 0, false⟩)], [], [], {"a"}⟩
      "a" [("room_id", Val.vstr "r")] "12:00:00" (by decide)⟩

/-! ## lastN lemmas, toward the stats-trim claim -/

theorem lastN_eq_reverse_take {α : Type} (n : Nat) (l : List α) :
    lastN n l = (l.reverse.take n).reverse := by
  rw [lastN, List.take_reverse, List.reverse_reverse]

theorem lastN_of_length_le {α : Type} {n : Nat} {l : List α}
    (h : l.length ≤ n) : lastN n l = l := by
  rw [lastN, Nat.sub_eq_zero_of_le h, List.drop_zero]

theorem lastN_length_le {α : Type} (n : Nat) (l : List α) :
    (lastN n l).length ≤ n := by
  rw [lastN, List.length_drop]
  omega

theorem take_append_take {α : Type} (n : Nat) (c d : List α) :
    (c ++ d.take n).take n = (c ++ d).take n := by
  rw [List.take_append_eq_append_take, List.take_append_eq_append_take,
      List.take_take, Nat.min_comm, Nat.min_eq_right (Nat.sub_le n c.length)]

theorem lastN_append_lastN {α : Type} (n : Nat) (a b : List α) :
    lastN n (lastN n a ++ b) = lastN n (a ++ b) := by
  rw [lastN_eq_reverse_take n (lastN n a ++ b), lastN_eq_reverse_take n (a ++ b),
      List.reverse_append, lastN_eq_reverse_take n a, List.reverse_reverse,
      take_append_take, ← List.reverse_append]

theorem trim_eq_lastN {α : Type} (l : List α) :
    (if l.length > 100 then l.drop (l.length - 100) else l) = lastN 100 l := by
  rw [lastN]
  split
  · rfl
  · next h =>
    rw [Nat.sub_eq_zero_of_le (Nat.le_of_not_lt h), List.drop_zero]

/-- One `stream_stats` event appends its entry to the addressed room's
log and keeps the most recent 100 entries. -/
theorem get_stats_handle_stream_stats (s : ServerState) (sid : String)
    (data : List (String × Val)) (now : String) :
    get_stats (handle_stream_stats s sid data now).1 (dget data "room_id") =
      lastN 100 (get_stats s (dget data "room_id") ++
        [[("timestamp", Val.vstr now), ("stats", dget data "stats")]]) := by
  unfold handle_stream_stats get_stats
  simp only [lookupKey_setKey_self, Option.getD_some]
  exact trim_eq_lastN _

theorem dget_statsEvent_room (r v : Val) :
    dget (statsEvent r v) "room_id" = r := by
  simp [statsEvent, dget, dgetD, dlookup]

theorem dget_statsEvent_stats (r v : Val) :
    dget (statsEvent r v) "stats" = v := by
  simp [statsEvent, dget, dgetD, dlookup]

/-- Feeding a sequence of `stream_stats` events leaves the most recent
100 of (previous log ++ new entries), provided the previous log already
obeyed the 100-entry cap. -/
theorem runStats_get_stats (r : Val) (inputs : List (String × Val))
    (s : ServerState) (h : (get_stats s r).length ≤ 100) :
    get_stats (runStats r inputs s) r =
      lastN 100 (get_stats s r ++ inputs.map statsEntryOf) := by
  induction inputs generalizing s with
  | nil =>
    rw [List.map_nil, List.append_nil, lastN_of_length_le h]
    simp [runStats]
  | cons p rest ih =>
    have hstep : get_stats (handle_stream_stats s "h" (statsEvent r p.2) p.1).1 r =
        lastN 100 (get_stats s r ++ [statsEntryOf p]) := by
      have := get_stats_handle_stream_stats s "h" (statsEvent r p.2) p.1
      rw [dget_statsEvent_room, dget_statsEvent_stats] at this
      rw [this, statsEntryOf]
    have hrun : runStats r (p :: rest) s =
        runStats r rest (handle_stream_stats s "h" (statsEvent r p.2) p.1).1 := by
      simp [runStats]
    rw [hrun, ih _ (by rw [hstep]; exact lastN_length_le 100 _), hstep,
        lastN_append_lastN, List.append_assoc, List.map_cons]
    rfl

/-! ## Claim C4: stream_stats keeps the most recent 100 entries -/

/-- C4: starting from a room with no stats log, a sequence of 150
`stream_stats` events leaves exactly 100 entries, equal to the last 100
appended in insertion order (the oldest 50 dropped); and after any single
`stream_stats` event the addressed room's log holds at most 100 entries. -/
theorem stream_stats_fifo_trim (s : ServerState) (r : Val)
    (inputs : List (String × Val))
    (h0 : lookupKey s.stream_stats r = none)
    (h150 : inputs.length = 150) :
    get_stats (runStats r inputs s) r = (inputs.map statsEntryOf).drop 50 ∧
    (get_stats (runStats r inputs s) r).length = 100 ∧
    ∀ (s' : ServerState) (sid : String) (data : List (String × Val)) (now : String),
      (get_stats (handle_stream_stats s' sid data now).1 (dget data "room_id")).length
        ≤ 100 := by
  have hempty : get_stats s r = [] := by rw [get_stats, h0]; rfl
  have hmain : get_stats (runStats r inputs s) r = (inputs.map statsEntryOf).drop 50 := by
    rw [runStats_get_stats r inputs s (by rw [hempty]; simp), hempty,
        List.nil_append, lastN, List.length_map, h150]
  refine ⟨hmain, ?_, ?_⟩
  · rw [hmain, List.length_drop, List.length_map, h150]
  · intro s' sid data now
    rw [get_stats_handle_stream_stats]
    exact lastN_length_le 100 _

/-- Witness for C4: 150 identical stats events on a fresh server. -/
theorem stream_stats_fifo_trim_witness :
    lookupKey (ServerState.mk [] [] [] ∅).stream_stats (Val.vstr "r") = none ∧
    (List.replicate 150 (("t", Val.vnum 1) : String × Val)).length = 150 ∧
    (get_stats (runStats (Val.vstr "r")
          (List.replicate 150 ("t", Val.vnum 1)) ⟨[], [], [], ∅⟩) (Val.vstr "r") =
        ((List.replicate 150 (("t", Val.vnum 1) : String × Val)).map statsEntryOf).drop 50 ∧
     (get_stats (runStats (Val.vstr "r")
          (List.replicate 150 ("t", Val.vnum 1)) ⟨[], [], [], ∅⟩) (Val.vstr "r")).length = 100 ∧
     ∀ (s' : ServerState) (sid : String) (data : List (String × Val)) (now : String),
       (get_stats (handle_stream_stats s' sid data now).1 (dget data "room_id")).length
         ≤ 100) :=
  ⟨rfl, by simp, stream_stats_fifo_trim ⟨[], [], [], ∅⟩ (Val.vstr "r")
      (List.replicate 150 ("t", Val.vnum 1)) rfl (by simp)⟩

/-! ## disconnectLoop step and frame lemmas -/

theorem disconnectLoop_cons_host (sid : String) (rid : Val) (room : StreamRoom)
    (rest : List (Val × StreamRoom)) (st : ServerState)
    (h : room.host_id = sid) :
    disconnectLoop sid ((rid, room) :: rest) st =
      ((disconnectLoop sid rest
          { st with active_rooms := delKey st.active_rooms rid }).1,
       streamEndedEvt rid ::
         (disconnectLoop sid rest
           { st with active_rooms := delKey st.active_rooms rid }).2) := by
  rw [disconnectLoop, if_pos h]

theorem disconnectLoop_cons_viewer (sid : String) (rid : Val) (room : StreamRoom)
    (rest : List (Val × StreamRoom)) (st : ServerState)
    (h1 : ¬room.host_id = sid) (h2 : sid ∈ room.viewers) :
    disconnectLoop sid ((rid, room) :: rest) st =
      ((disconnectLoop sid rest
          { st with active_rooms :=
              setKey st.active_rooms rid (room.remove_viewer sid) }).1,
       viewerLeftEvt rid sid (room.remove_viewer sid).get_viewer_count ::
         (disconnectLoop sid rest
           { st with active_rooms :=
               setKey st.active_rooms rid (room.remove_viewer sid) }).2) := by
  rw [disconnectLoop, if_neg h1, if_pos h2]

theorem disconnectLoop_cons_other (sid : String) (rid : Val) (room : StreamRoom)
    (rest : List (Val × StreamRoom)) (st : ServerState)
    (h1 : ¬room.host_id = sid) (h2 : sid ∉ room.viewers) :
    disconnectLoop sid ((rid, room) :: rest) st = disconnectLoop sid rest st := by
  rw [disconnectLoop, if_neg h1, if_neg h2]

/-- The cleanup loop only touches `active_rooms`. -/
theorem disconnectLoop_preserves (sid : String) (l : List (Val × StreamRoom))
    (st : ServerState) :
    (disconnectLoop sid l st).1.groups = st.groups ∧
    (disconnectLoop sid l st).1.connected = st.connected ∧
    (disconnectLoop sid l st).1.stream_stats = st.stream_stats := by
  induction l generalizing st with
  | nil => exact ⟨rfl, rfl, rfl⟩
  | cons p rest ih =>
    obtain ⟨rid, room⟩ := p
    by_cases h1 : room.host_id = sid
    · rw [disconnectLoop_cons_host sid rid room rest st h1]
      exact ih _
    · by_cases h2 : sid ∈ room.viewers
      · rw [disconnectLoop_cons_viewer sid rid room rest st h1 h2]
        exact ih _
      · rw [disconnectLoop_cons_other sid rid room rest st h1 h2]
        exact ih _

/-- Rooms whose id never occurs in the scanned list keep their binding. -/
theorem disconnectLoop_lookup_of_not_mem (sid : String) (rid : Val)
    (l : List (Val × StreamRoom)) (st : ServerState) (h : rid ∉ keysOf l) :
    lookupKey (disconnectLoop sid l st).1.active_rooms rid =
      lookupKey st.active_rooms rid := by
  induction l generalizing st with
  | nil => rfl
  | cons p rest ih =>
    obtain ⟨rid', room⟩ := p
    simp only [keysOf, List.map_cons, List.mem_cons, not_or] at h
    obtain ⟨hne, hrest⟩ := h
    have hrest' : rid ∉ keysOf rest := hrest
    by_cases h1 : room.host_id = sid
    · rw [disconnectLoop_cons_host sid rid' room rest st h1, ih _ hrest']
      exact lookupKey_delKey_ne st.active_rooms rid' rid (fun he => hne he.symm)
    · by_cases h2 : sid ∈ room.viewers
      · rw [disconnectLoop_cons_viewer sid rid' room rest st h1 h2, ih _ hrest']
        exact lookupKey_setKey_ne st.active_rooms rid' rid _ (fun he => hne he.symm)
      · rw [disconnectLoop_cons_other sid rid' room rest st h1 h2]
        exact ih _ hrest'

/-- A room hosted by the disconnecting socket is gone after the loop. -/
theorem disconnectLoop_lookup_host (sid : String) (rid : Val) (room : StreamRoom)
    (l : List (Val × StreamRoom)) (st : ServerState)
    (hnd : (keysOf l).Nodup) (hmem : (rid, room) ∈ l)
    (hhost : room.host_id = sid) :
    lookupKey (disconnectLoop sid l st).1.active_rooms rid = none := by
  induction l generalizing st with
  | nil => simp at hmem
  | cons p rest ih =>
    obtain ⟨rid', room'⟩ := p
    simp only [keysOf, List.map_cons, List.nodup_cons] at hnd
    rcases List.mem_cons.mp hmem with heq | hrest
    · cases heq
      rw [disconnectLoop_cons_host sid rid room rest st hhost,
          disconnectLoop_lookup_of_not_mem sid rid rest _ hnd.1]
      exact lookupKey_delKey_self st.active_rooms rid
    · by_cases h1 : room'.host_id = sid
      · rw [disconnectLoop_cons_host sid rid' room' rest st h1]
        exact ih _ hnd.2 hrest
      · by_cases h2 : sid ∈ room'.viewers
        · rw [disconnectLoop_cons_viewer sid rid' room' rest st h1 h2]
          exact ih _ hnd.2 hrest
        · rw [disconnectLoop_cons_other sid rid' room' rest st h1 h2]
          exact ih _ hnd.2 hrest

/-- A room merely viewed by the disconnecting socket survives with the
viewer erased and nothing else changed. -/
theorem disconnectLoop_lookup_viewer (sid : String) (rid : Val) (room : StreamRoom)
    (l : List (Val × StreamRoom)) (st : ServerState)
    (hnd : (keysOf l).Nodup) (hmem : (rid, room) ∈ l)
    (hhost : ¬room.host_id = sid) (hv : sid ∈ room.viewers) :
    lookupKey (disconnectLoop sid l st).1.active_rooms rid =
      some (room.remove_viewer sid) := by
  induction l generalizing st with
  | nil => simp at hmem
  | cons p rest ih =>
    obtain ⟨rid', room'⟩ := p
    simp only [keysOf, List.map_cons, List.nodup_cons] at hnd
    rcases List.mem_cons.mp hmem with heq | hrest
    · cases heq
      rw [disconnectLoop_cons_viewer sid rid room rest st hhost hv,
          disconnectLoop_lookup_of_not_mem sid rid rest _ hnd.1]
      exact lookupKey_setKey_self st.active_rooms rid _
    · by_cases h1 : room'.host_id = sid
      · rw [disconnectLoop_cons_host sid rid' room' rest st h1]
        exact ih _ hnd.2 hrest
      · by_cases h2 : sid ∈ room'.viewers
        · rw [disconnectLoop_cons_viewer sid rid' room' rest st h1 h2]
          exact ih _ hnd.2 hrest
        · rw [disconnectLoop_cons_other sid rid' room' rest st h1 h2]
          exact ih _ hnd.2 hrest

/-- No event addressed to group `rid` is emitted while scanning rooms
whose ids are all different from `rid`. -/
theorem disconnectLoop_events_of_not_mem (sid : String) (rid : Val)
    (l : List (Val × StreamRoom)) (st : ServerState) (h : rid ∉ keysOf l) :
    (disconnectLoop sid l st).2.filter
      (fun e => e.target = Target.toGroup rid) = [] := by
  induction l generalizing st with
  | nil => rfl
  | cons p rest ih =>
    obtain ⟨rid', room⟩ := p
    simp only [keysOf, List.map_cons, List.mem_cons, not_or] at h
    obtain ⟨hne, hrest⟩ := h
    have hne' : rid' ≠ rid := fun he => hne he.symm
    by_cases h1 : room.host_id = sid
    · rw [disconnectLoop_cons_host sid rid' room rest st h1, List.filter_cons,
          if_neg (by simp [streamEndedEvt, hne'])]
      exact ih _ hrest
    · by_cases h2 : sid ∈ room.viewers
      · rw [disconnectLoop_cons_viewer sid rid' room rest st h1 h2, List.filter_cons,
            if_neg (by simp [viewerLeftEvt, hne'])]
        exact ih _ hrest
      · rw [disconnectLoop_cons_other sid rid' room rest st h1 h2]
        exact ih _ hrest

/-- When the leaver hosts room `rid`, the only event the loop addresses
to group `rid` is a single `stream_ended` broadcast. -/
theorem disconnectLoop_events_host (sid : String) (rid : Val) (room : StreamRoom)
    (l : List (Val × StreamRoom)) (st : ServerState)
    (hnd : (keysOf l).Nodup) (hmem : (rid, room) ∈ l)
    (hhost : room.host_id = sid) :
    (disconnectLoop sid l st).2.filter
      (fun e => e.target = Target.toGroup rid) = [streamEndedEvt rid] := by
  induction l generalizing st with
  | nil => simp at hmem
  | cons p rest ih =>
    obtain ⟨rid', room'⟩ := p
    simp only [keysOf, List.map_cons, List.nodup_cons] at hnd
    rcases List.mem_cons.mp hmem with heq | hrest
    · cases heq
      rw [disconnectLoop_cons_host sid rid room rest st hhost, List.filter_cons,
          if_pos (by simp [streamEndedEvt]),
          disconnectLoop_events_of_not_mem sid rid rest _ hnd.1]
    · have hkey : rid ∈ keysOf rest := List.mem_map.mpr ⟨(rid, room), hrest, rfl⟩
      have hne' : rid' ≠ rid := fun he => hnd.1 (he ▸ hkey)
      by_cases h1 : room'.host_id = sid
      · rw [disconnectLoop_cons_host sid rid' room' rest st h1, List.filter_cons,
            if_neg (by simp [streamEndedEvt, hne'])]
        exact ih _ hnd.2 hrest
      · by_cases h2 : sid ∈ room'.viewers
        · rw [disconnectLoop_cons_viewer sid rid' room' rest st h1 h2, List.filter_cons,
              if_neg (by simp [viewerLeftEvt, hne'])]
          exact ih _ hnd.2 hrest
        · rw [disconnectLoop_cons_other sid rid' room' rest st h1 h2]
          exact ih _ hnd.2 hrest

/-- When the leaver merely views room `rid`, the only event the loop
addresses to group `rid` is a single `viewer_left` broadcast carrying the
decreased count. -/
theorem disconnectLoop_events_viewer (sid : String) (rid : Val) (room : StreamRoom)
    (l : List (Val × StreamRoom)) (st : ServerState)
    (hnd : (keysOf l).Nodup) (hmem : (rid, room) ∈ l)
    (hhost : ¬room.host_id = sid) (hv : sid ∈ room.viewers) :
    (disconnectLoop sid l st).2.filter
      (fun e => e.target = Target.toGroup rid) =
      [viewerLeftEvt rid sid (room.remove_viewer sid).get_viewer_count] := by
  induction l generalizing st with
  | nil => simp at hmem
  | cons p rest ih =>
    obtain ⟨rid', room'⟩ := p
    simp only [keysOf, List.map_cons, List.nodup_cons] at hnd
    rcases List.mem_cons.mp hmem with heq | hrest
    · cases heq
      rw [disconnectLoop_cons_viewer sid rid room rest st hhost hv, List.filter_cons,
          if_pos (by simp [viewerLeftEvt]),
          disconnectLoop_events_of_not_mem sid rid rest _ hnd.1]
    · have hkey : rid ∈ keysOf rest := List.mem_map.mpr ⟨(rid, room), hrest, rfl⟩
      have hne' : rid' ≠ rid := fun he => hnd.1 (he ▸ hkey)
      by_cases h1 : room'.host_id = sid
      · rw [disconnectLoop_cons_host sid rid' room' rest st h1, List.filter_cons,
            if_neg (by simp [streamEndedEvt, hne'])]
        exact ih _ hnd.2 hrest
      · by_cases h2 : sid ∈ room'.viewers
        · rw [disconnectLoop_cons_viewer sid rid' room' rest st h1 h2, List.filter_cons,
              if_neg (by simp [viewerLeftEvt, hne'])]
          exact ih _ hnd.2 hrest
        · rw [disconnectLoop_cons_other sid rid' room' rest st h1 h2]
          exact ih _ hnd.2 hrest

/-! ## handle_disconnect bridge lemmas -/

theorem handle_disconnect_eq (s : ServerState) (sid : String) :
    handle_disconnect s sid =
      disconnectLoop sid s.active_rooms
        { s with
            connected := s.connected.erase sid,
            groups := s.groups.map (fun p => (p.1, p.2.erase sid)) } := rfl

theorem recipients_toGroup (s : ServerState) (sender : String) (g : Val) :
    recipients s sender (Target.toGroup g) = groupOf s g ∩ s.connected := rfl

theorem lookupKey_erase_map (m : List (Val × Finset String)) (sid : String)
    (g : Val) :
    (lookupKey (m.map (fun p => (p.1, p.2.erase sid))) g).getD ∅ =
      ((lookupKey m g).getD ∅).erase sid := by
  induction m with
  | nil => simp [lookupKey]
  | cons p rest ih =>
    obtain ⟨k₀, v₀⟩ := p
    by_cases h₀ : k₀ = g
    · simp [lookupKey, h₀]
    · simp [lookupKey, h₀, ih]

theorem groupOf_handle_disconnect (s : ServerState) (sid : String) (g : Val) :
    groupOf (handle_disconnect s sid).1 g = (groupOf s g).erase sid := by
  rw [groupOf, handle_disconnect_eq,
      (disconnectLoop_preserves sid s.active_rooms _).1]
  exact lookupKey_erase_map s.groups sid g

theorem connected_handle_disconnect (s : ServerState) (sid : String) :
    (handle_disconnect s sid).1.connected = s.connected.erase sid := by
  rw [handle_disconnect_eq]
  exact (disconnectLoop_preserves sid s.active_rooms _).2.1

theorem stream_stats_handle_disconnect (s : ServerState) (sid : String) :
    (handle_disconnect s sid).1.stream_stats = s.stream_stats := by
  rw [handle_disconnect_eq]
  exact (disconnectLoop_preserves sid s.active_rooms _).2.2

/-! ## Claim C1: host disconnect tears the room down -/

/-- C1: when the host of a room disconnects, the only event addressed to
the room's group is a single `stream_ended` broadcast with the
"Host disconnected" message, it reaches every current viewer, and the
room is removed from the table: a subsequent lookup reports nothing. -/
theorem host_disconnect_teardown (s : ServerState) (h : String) (rid : Val)
    (room : StreamRoom)
    (hnd : (keysOf s.active_rooms).Nodup)
    (hmem : (rid, room) ∈ s.active_rooms)
    (hhost : room.host_id = h)
    (hgrp : room.viewers ⊆ groupOf s rid)
    (hconn : room.viewers ⊆ s.connected)
    (hself : h ∉ room.viewers) :
    getRoom (handle_disconnect s h).1 rid = none ∧
    (handle_disconnect s h).2.filter
      (fun e => e.target = Target.toGroup rid) = [streamEndedEvt rid] ∧
    room.viewers ⊆ recipients (handle_disconnect s h).1 h (Target.toGroup rid) := by
  refine ⟨?_, ?_, ?_⟩
  · rw [getRoom, handle_disconnect_eq]
    exact disconnectLoop_lookup_host h rid room s.active_rooms _ hnd hmem hhost
  · rw [handle_disconnect_eq]
    exact disconnectLoop_events_host h rid room s.active_rooms _ hnd hmem hhost
  · intro x hx
    have hxne : x ≠ h := fun he => hself (he ▸ hx)
    rw [recipients_toGroup, groupOf_handle_disconnect, connected_handle_disconnect]
    exact Finset.mem_inter.mpr
      ⟨Finset.mem_erase.mpr ⟨hxne, hgrp hx⟩,
       Finset.mem_erase.mpr ⟨hxne, hconn hx⟩⟩

/-- Witness for C1: host "h" of room "r" with viewers "v1", "v2"
disconnects. -/
theorem host_disconnect_teardown_witness :
    (keysOf (ServerState.mk
        [(Val.vstr "r", ⟨Val.vstr "r", "h", {"v1", "v2"}, [], 0, false⟩)]
        [] [(Val.vstr "r", {"h", "v1", "v2"})] {"h", "v1", "v2"}).active_rooms).Nodup ∧
    (getRoom (handle_disconnect
        ⟨[(Val.vstr "r", ⟨Val.vstr "r", "h", {"v1", "v2"}, [], 0, false⟩)],
         [], [(Val.vstr "r", {"h", "v1", "v2"})], {"h", "v1", "v2"}⟩ "h").1
        (Val.vstr "r") = none ∧
     (handle_disconnect
        ⟨[(Val.vstr "r", ⟨Val.vstr "r", "h", {"v1", "v2"}, [], 0, false⟩)],
         [], [(Val.vstr "r", {"h", "v1", "v2"})], {"h", "v1", "v2"}⟩ "h").2.filter
        (fun e => e.target = Target.toGroup (Val.vstr "r")) =
          [streamEndedEvt (Val.vstr "r")] ∧
     ({"v1", "v2"} : Finset String) ⊆ recipients (handle_disconnect
        ⟨[(Val.vstr "r", ⟨Val.vstr "r", "h", {"v1", "v2"}, [], 0, false⟩)],
         [], [(Val.vstr "r", {"h", "v1", "v2"})], {"h", "v1", "v2"}⟩ "h").1
        "h" (Target.toGroup (Val.vstr "r"))) :=
  ⟨by decide, host_disconnect_teardown
      ⟨[(Val.vstr "r", ⟨Val.vstr "r", "h", {"v1", "v2"}, [], 0, false⟩)],
       [], [(Val.vstr "r", {"h", "v1", "v2"})], {"h", "v1", "v2"}⟩
      "h" (Val.vstr "r") ⟨Val.vstr "r", "h", {"v1", "v2"}, [], 0, false⟩
      (by decide) (by decide) (by decide) (by decide) (by decide) (by decide)⟩

/-! ## Claim C3: viewer disconnect shrinks the room, never deletes it -/

/-- C3: when a viewer (not the host) disconnects, the room survives with
exactly that viewer erased and every other field unchanged, the viewer
count drops by one, and the single `viewer_left` broadcast addressed to
the room's group reaches exactly the remaining members. -/
theorem viewer_disconnect_updates (s : ServerState) (v : String) (rid : Val)
    (room : StreamRoom)
    (hnd : (keysOf s.active_rooms).Nodup)
    (hmem : (rid, room) ∈ s.active_rooms)
    (hhost : ¬room.host_id = v)
    (hv : v ∈ room.viewers)
    (hgrp : groupOf s rid = insert room.host_id room.viewers)
    (hconn : insert room.host_id room.viewers ⊆ s.connected) :
    getRoom (handle_disconnect s v).1 rid = some (room.remove_viewer v) ∧
    (room.remove_viewer v).get_viewer_count = room.get_viewer_count - 1 ∧
    (handle_disconnect s v).2.filter
      (fun e => e.target = Target.toGroup rid) =
      [viewerLeftEvt rid v (room.remove_viewer v).get_viewer_count] ∧
    recipients (handle_disconnect s v).1 v (Target.toGroup rid) =
      insert room.host_id (room.viewers.erase v) := by
  have hhv : room.host_id ≠ v := hhost
  refine ⟨?_, ?_, ?_, ?_⟩
  · rw [getRoom, handle_disconnect_eq]
    exact disconnectLoop_lookup_viewer v rid room s.active_rooms _ hnd hmem hhost hv
  · show (room.viewers.erase v).card = room.viewers.card - 1
    exact Finset.card_erase_of_mem hv
  · rw [handle_disconnect_eq]
    exact disconnectLoop_events_viewer v rid room s.active_rooms _ hnd hmem hhost hv
  · rw [recipients_toGroup, groupOf_handle_disconnect, connected_handle_disconnect,
        hgrp, Finset.erase_insert_of_ne hhv, Finset.inter_eq_left,
        Finset.subset_erase]
    constructor
    · exact (Finset.insert_subset_insert room.host_id
        (Finset.erase_subset v room.viewers)).trans hconn
    · intro hvmem
      rcases Finset.mem_insert.mp hvmem with h' | h'
      · exact hhv h'.symm
      · exact (Finset.mem_erase.mp h').1 rfl

/-- Witness for C3: viewer "v1" of room "r" (host "h", viewers "v1",
"v2") disconnects. -/
theorem viewer_disconnect_updates_witness :
    "v1" ∈ (⟨Val.vstr "r", "h", {"v1", "v2"}, [], 0, false⟩ : StreamRoom).viewers ∧
    (getRoom (handle_disconnect
        ⟨[(Val.vstr "r", ⟨Val.vstr "r", "h", {"v1", "v2"}, [], 0, false⟩)],
         [], [(Val.vstr "r", {"h", "v1", "v2"})], {"h", "v1", "v2"}⟩ "v1").1
        (Val.vstr "r") =
      some ((⟨Val.vstr "r", "h", {"v1", "v2"}, [], 0, false⟩ : StreamRoom).remove_viewer "v1") ∧
     ((⟨Val.vstr "r", "h", {"v1", "v2"}, [], 0, false⟩ : StreamRoom).remove_viewer "v1").get_viewer_count =
       (⟨Val.vstr "r", "h", {"v1", "v2"}, [], 0, false⟩ : StreamRoom).get_viewer_count - 1 ∧
     (handle_disconnect
        ⟨[(Val.vstr "r", ⟨Val.vstr "r", "h", {"v1", "v2"}, [], 0, false⟩)],
         [], [(Val.vstr "r", {"h", "v1", "v2"})], {"h", "v1", "v2"}⟩ "v1").2.filter
        (fun e => e.target = Target.toGroup (Val.vstr "r")) =
       [viewerLeftEvt (Val.vstr "r") "v1"
         ((⟨Val.vstr "r", "h", {"v1", "v2"}, [], 0, false⟩ : StreamRoom).remove_viewer "v1").get_viewer_count] ∧
     recipients (handle_disconnect
        ⟨[(Val.vstr "r", ⟨Val.vstr "r", "h", {"v1", "v2"}, [], 0, false⟩)],
         [], [(Val.vstr "r", {"h", "v1", "v2"})], {"h", "v1", "v2"}⟩ "v1").1
        "v1" (Target.toGroup (Val.vstr "r")) =
       insert "h" ((({"v1", "v2"} : Finset String)).erase "v1")) :=
  ⟨by decide, viewer_disconnect_updates
      ⟨[(Val.vstr "r", ⟨Val.vstr "r", "h", {"v1", "v2"}, [], 0, false⟩)],
       [], [(Val.vstr "r", {"h", "v1", "v2"})], {"h", "v1", "v2"}⟩
      "v1" (Val.vstr "r") ⟨Val.vstr "r", "h", {"v1", "v2"}, [], 0, false⟩
      (by decide) (by decide) (by decide) (by decide) (by decide) (by decide)⟩

/-! ## Claim C7: what room deletion actually removes -/

/-- C7 counterexample: connect "h", create room "r", record one stats
entry for "r", then let the host disconnect. The room is gone, yet the
stats history for "r" is still retrievable through the stats route — it
was not removed with the room. -/
theorem room_deletion_keeps_stats_counterexample :
    getRoom (handle_disconnect (handle_stream_stats (handle_create_room
        (handle_connect ⟨[], [], [], ∅⟩ "h").1 "h"
        [("room_id", Val.vstr "r")] 0).1 "h"
        [("room_id", Val.vstr "r"), ("stats", Val.vnum 7)] "T").1 "h").1
      (Val.vstr "r") = none ∧
    get_stats (handle_disconnect (handle_stream_stats (handle_create_room
        (handle_connect ⟨[], [], [], ∅⟩ "h").1 "h"
        [("room_id", Val.vstr "r")] 0).1 "h"
        [("room_id", Val.vstr "r"), ("stats", Val.vnum 7)] "T").1 "h").1
      (Val.vstr "r") =
      [[("timestamp", Val.vstr "T"), ("stats", Val.vnum 7)]] ∧
    get_stats (handle_disconnect (handle_stream_stats (handle_create_room
        (handle_connect ⟨[], [], [], ∅⟩ "h").1 "h"
        [("room_id", Val.vstr "r")] 0).1 "h"
        [("room_id", Val.vstr "r"), ("stats", Val.vnum 7)] "T").1 "h").1
      (Val.vstr "r") ≠ [] := by
  refine ⟨by decide, by decide, by decide⟩

/-- C7 (amended): host-disconnect teardown removes the room itself — and
with it the chat log stored inside the `StreamRoom` — so the lookup
reports nothing; but the stats table is a separate store that the
disconnect handler never touches, so the room's stats history remains
retrievable unchanged. -/
theorem room_deletion_scope (s : ServerState) (h : String) (rid : Val)
    (room : StreamRoom)
    (hnd : (keysOf s.active_rooms).Nodup)
    (hmem : (rid, room) ∈ s.active_rooms)
    (hhost : room.host_id = h) :
    getRoom (handle_disconnect s h).1 rid = none ∧
    (handle_disconnect s h).1.stream_stats = s.stream_stats ∧
    get_stats (handle_disconnect s h).1 rid = get_stats s rid := by
  refine ⟨?_, stream_stats_handle_disconnect s h, ?_⟩
  · rw [getRoom, handle_disconnect_eq]
    exact disconnectLoop_lookup_host h rid room s.active_rooms _ hnd hmem hhost
  · rw [get_stats, get_stats, stream_stats_handle_disconnect]

/-- Witness for the amended C7 at a room with a nonempty stats log. -/
theorem room_deletion_scope_witness :
    (Val.vstr "r", (⟨Val.vstr "r", "h", ∅, [], 0, false⟩ : StreamRoom)) ∈
      (ServerState.mk [(Val.vstr "r", ⟨Val.vstr "r", "h", ∅, [], 0, false⟩)]
        [(Val.vstr "r", [[("stats", Val.vnum 7)]])] [] {"h"}).active_rooms ∧
    (getRoom (handle_disconnect
        ⟨[(Val.vstr "r", ⟨Val.vstr "r", "h", ∅, [], 0, false⟩)],
         [(Val.vstr "r", [[("stats", Val.vnum 7)]])], [], {"h"}⟩ "h").1
        (Val.vstr "r") = none ∧
     (handle_disconnect
        ⟨[(Val.vstr "r", ⟨Val.vstr "r", "h", ∅, [], 0, false⟩)],
         [(Val.vstr "r", [[("stats", Val.vnum 7)]])], [], {"h"}⟩ "h").1.stream_stats =
       (ServerState.mk [(Val.vstr "r", ⟨Val.vstr "r", "h", ∅, [], 0, false⟩)]
         [(Val.vstr "r", [[("stats", Val.vnum 7)]])] [] {"h"}).stream_stats ∧
     get_stats (handle_disconnect
        ⟨[(Val.vstr "r", ⟨Val.vstr "r", "h", ∅, [], 0, false⟩)],
         [(Val.vstr "r", [[("stats", Val.vnum 7)]])], [], {"h"}⟩ "h").1
        (Val.vstr "r") =
       get_stats ⟨[(Val.vstr "r", ⟨Val.vstr "r", "h", ∅, [], 0, false⟩)],
         [(Val.vstr "r", [[("stats", Val.vnum 7)]])], [], {"h"}⟩ (Val.vstr "r")) :=
  ⟨by decide, room_deletion_scope
      ⟨[(Val.vstr "r", ⟨Val.vstr "r", "h", ∅, [], 0, false⟩)],
       [(Val.vstr "r", [[("stats", Val.vnum 7)]])], [], {"h"}⟩
      "h" (Val.vstr "r") ⟨Val.vstr "r", "h", ∅, [], 0, false⟩
      (by decide) (by decide) (by decide)⟩

/-! ## Claim C9: events with missing required fields -/

theorem dlookup_cons_self (k : String) (v : Val) (d : List (String × Val)) :
    dlookup ((k, v) :: d) k = some v := by
  simp [dlookup]

theorem dlookup_cons_ne (k k' : String) (v : Val) (d : List (String × Val))
    (h : k ≠ k') : dlookup ((k, v) :: d) k' = dlookup d k' := by
  simp [dlookup, h]

/-- C9 counterexample: a `chat_message` for an existing room with both
`username` and `message` missing is NOT ignored: the room's chat history
is mutated and a `chat_message` broadcast is emitted. -/
theorem malformed_not_ignored_counterexample :
    (handle_chat_message
        ⟨[(Val.vstr "r", ⟨Val.vstr "r", "h", ∅, [], 0, false⟩)], [], [], {"h"}⟩
        "h" [("room_id", Val.vstr "r")] "12:00:00").1 ≠
      (⟨[(Val.vstr "r", ⟨Val.vstr "r", "h", ∅, [], 0, false⟩)], [], [], {"h"}⟩
        : ServerState) ∧
    (handle_chat_message
        ⟨[(Val.vstr "r", ⟨Val.vstr "r", "h", ∅, [], 0, false⟩)], [], [], {"h"}⟩
        "h" [("room_id", Val.vstr "r")] "12:00:00").2 ≠ [] := by
  refine ⟨by decide, by decide⟩

/-- C9 (amended): a missing field never crashes a handler, but the event
is not ignored either: `join_room` treats a missing `username` exactly as
the literal "Anonymous", and `chat_message` on an existing room with a
missing `message` (and `username`) still appends a null-message entry and
broadcasts it to the room's group. -/
theorem malformed_fields_defaulted (s : ServerState) (sid : String)
    (data : List (String × Val)) (now : String) (room : StreamRoom)
    (hu : dlookup data "username" = none)
    (hm : dlookup data "message" = none)
    (hr : lookupKey s.active_rooms (dget data "room_id") = some room) :
    handle_join_room s sid data =
      handle_join_room s sid (("username", Val.vstr "Anonymous") :: data) ∧
    getRoom (handle_chat_message s sid data now).1 (dget data "room_id") =
      some { room with chat_history := room.chat_history ++
        [[("username", Val.vstr "Anonymous"), ("message", Val.vnull),
          ("timestamp", Val.vstr now)]] } ∧
    (handle_chat_message s sid data now).2 =
      [⟨"chat_message",
        [("username", Val.vstr "Anonymous"), ("message", Val.vnull),
         ("timestamp", Val.vstr now)], Target.toGroup (dget data "room_id")⟩] := by
  have h1 : dget (("username", Val.vstr "Anonymous") :: data) "room_id" =
      dget data "room_id" := by
    rw [dget, dget, dgetD, dgetD, dlookup_cons_ne _ _ _ _ (by decide)]
  have h2 : dgetD (("username", Val.vstr "Anonymous") :: data) "username"
      (Val.vstr "Anonymous") = Val.vstr "Anonymous" := by
    rw [dgetD, dlookup_cons_self]
    rfl
  have h3 : dgetD data "username" (Val.vstr "Anonymous") = Val.vstr "Anonymous" := by
    rw [dgetD, hu]
    rfl
  have h4 : dget data "message" = Val.vnull := by
    rw [dget, dgetD, hm]
    rfl
  refine ⟨?_, ?_, ?_⟩
  · simp only [handle_join_room, h1, h2, h3]
  · simp only [handle_chat_message, hr, h3, h4, getRoom]
    rw [lookupKey_setKey_self]
  · simp only [handle_chat_message, hr, h3, h4]

/-- Witness for the amended C9 at a concrete room and field-free payload. -/
theorem malformed_fields_defaulted_witness :
    dlookup [("room_id", Val.vstr "r")] "username" = none ∧
    dlookup [("room_id", Val.vstr "r")] "message" = none ∧
    (handle_join_room
        ⟨[(Val.vstr "r", ⟨Val.vstr "r", "h", ∅, [], 0, false⟩)], [], [], {"h"}⟩
        "c" [("room_id", Val.vstr "r")] =
      handle_join_room
        ⟨[(Val.vstr "r", ⟨Val.vstr "r", "h", ∅, [], 0, false⟩)], [], [], {"h"}⟩
        "c" (("username", Val.vstr "Anonymous") :: [("room_id", Val.vstr "r")]) ∧
     getRoom (handle_chat_message
        ⟨[(Val.vstr "r", ⟨Val.vstr "r", "h", ∅, [], 0, false⟩)], [], [], {"h"}⟩
        "c" [("room_id", Val.vstr "r")] "12:00:00").1
        (dget [("room_id", Val.vstr "r")] "room_id") =
      some { (⟨Val.vstr "r", "h", ∅, [], 0, false⟩ : StreamRoom) with
        chat_history := (⟨Val.vstr "r", "h", ∅, [], 0, false⟩ : StreamRoom).chat_history ++
          [[("username", Val.vstr "Anonymous"), ("message", Val.vnull),
            ("timestamp", Val.vstr "12:00:00")]] } ∧
     (handle_chat_message
        ⟨[(Val.vstr "r", ⟨Val.vstr "r", "h", ∅, [], 0, false⟩)], [], [], {"h"}⟩
        "c" [("room_id", Val.vstr "r")] "12:00:00").2 =
      [⟨"chat_message",
        [("username", Val.vstr "Anonymous"), ("message", Val.vnull),
         ("timestamp", Val.vstr "12:00:00")],
        Target.toGroup (dget [("room_id", Val.vstr "r")] "room_id")⟩]) :=
  ⟨by decide, by decide, malformed_fields_defaulted
      ⟨[(Val.vstr "r", ⟨Val.vstr "r", "h", ∅, [], 0, false⟩)], [], [], {"h"}⟩
      "c" [("room_id", Val.vstr "r")] "12:00:00"
      ⟨Val.vstr "r", "h", ∅, [], 0, false⟩
      (by decide) (by decide) (by decide)⟩
